import Mathlib

/-!
# Verification of the `wc-tools` deployment-monitoring subsystem

A shallow embedding, in Lean 4, of `src/monitor/deploy-monitor.js`:

* the **Status Interpreter** pure functions (`calculateProgress`,
  `areTestsComplete`, `hasFailedEarly`, `didTestsPass`, `getFailedTests`);
* the **Remote Status Client** retry loop (`checkStatus`), with the network
  modelled as a function from attempt index to outcome;
* the **Monitor Loop** (`monitor`), with effects (status-store writes,
  notifications, sleeps, opened URLs) recorded as an event trace and the
  remote API modelled as a function from iteration index to outcome;
* the **Status Store** update (`updateSharedStatus`), with JSON objects
  modelled as association lists and the file read modelled explicitly.

JavaScript objects appearing as status snapshots are modelled with optional
fields (`Option`); JS `Object.values` order is modelled by keeping test runs
as a list.  Machine-level details that no property here depends on
(floating-point rounding inside `Math.round`, console logging, base64 config
decoding) are modelled at the exact-rational / event level.
-/

namespace DeployMonitor

/-- One entry of the `test_runs` mapping of a snapshot
(`TestRun = {test_run_id, status, test_type, result_url?}`; the id plays no
role in any function below, so it is omitted from the model). -/
structure TestRun where
  status : String
  test_type : String
  result_url : Option String
deriving DecidableEq, Repr

/-- A `DeploymentStatusSnapshot` as returned by the remote API:
`{status: string, test_runs?: mapping}`.  Both fields are optional in JS
(`status.status` may be `undefined`); `test_runs` is kept in
`Object.values` order. -/
structure Snapshot where
  status : Option String
  test_runs : Option (List TestRun)
deriving DecidableEq, Repr

/-- The JS literal `{}` passed to `calculateProgress` on the timeout path:
no `status`, no `test_runs`. -/
def emptySnapshot : Snapshot := ⟨none, none⟩

/-- The `pendingStates` array of `areTestsComplete`, also used (inline) by
`calculateProgress`: the statuses pending, running, queued. -/
def pendingStates : List String := ["pending", "running", "queued"]

/-- the `testRuns.filter(...).length` count of runs whose status is outside `pendingStates`,
from `calculateProgress`. -/
def completedCount (runs : List TestRun) : Nat :=
  (runs.filter fun t => !(pendingStates.contains t.status)).length

/-- `Math.round` applied to the exact rational `num / den` and scaled by the
caller; for nonnegative arguments JS `Math.round` is floor(x + 1/2), which on
the rational `num / den` is `(2*num + den) / (2*den)` in integer division.
The lemma `roundRat_eq_round` below proves this equal to the Mathlib `round`. -/
def roundRat (num den : Nat) : Nat :=
  (2 * num + den) / (2 * den)

/-- `calculateProgress(status)` from `deploy-monitor.js` (lines 92-103):
5 when `test_runs` is absent, 10 when it is present but empty, otherwise
`Math.round((completed / testRuns.length) * 100)` where completed counts the
runs whose status is not in `pendingStates`. -/
def calculateProgress (status : Snapshot) : Nat :=
  match status.test_runs with
  | none => 5
  | some testRuns =>
    if testRuns.length = 0 then 10
    else roundRat (completedCount testRuns * 100) testRuns.length

/-- `areTestsComplete(status)` (lines 202-216): false when `test_runs` is
absent or empty; otherwise true iff no test run has a status in
`pendingStates`. -/
def areTestsComplete (status : Snapshot) : Bool :=
  match status.test_runs with
  | none => false
  | some runs =>
    if runs.length = 0 then false
    else runs.all fun t => !(pendingStates.contains t.status)

/-- `hasFailedEarly(status)` (lines 221-235): true when the top-level status
is `failed`/`error`, or when some test run has status `failed`/`error`. -/
def hasFailedEarly (status : Snapshot) : Bool :=
  if status.status == some "failed" || status.status == some "error" then true
  else
    match status.test_runs with
    | none => false
    | some runs => runs.any fun t => t.status == "failed" || t.status == "error"

/-- `didTestsPass(status)` (lines 240-250): false when `test_runs` is absent;
otherwise true iff every test run has status exactly `success`.  (A present
but empty mapping yields `true`, vacuously, exactly as the JS loop does.) -/
def didTestsPass (status : Snapshot) : Bool :=
  match status.test_runs with
  | none => false
  | some runs => runs.all fun t => t.status == "success"

/-- One element of the result of `getFailedTests`:
`{type: testRun.test_type, status: testRun.status, url: testRun.result_url}`. -/
structure FailedTest where
  type : String
  status : String
  url : Option String
deriving DecidableEq, Repr

/-- `getFailedTests(status)` (lines 255-271): every test run whose status is
not `success`, in iteration order. -/
def getFailedTests (status : Snapshot) : List FailedTest :=
  match status.test_runs with
  | none => []
  | some runs =>
    (runs.filter fun t => !(t.status == "success")).map
      fun t => ⟨t.test_type, t.status, t.result_url⟩

/-! ## String containment (JS `String.prototype.includes`) -/

/-- `needle` is a prefix of `hay` (character lists). -/
def charsStartWith : (hay needle : List Char) → Bool
  | _, [] => true
  | [], _ :: _ => false
  | c :: cs, d :: ds => c == d && charsStartWith cs ds

/-- `needle` occurs contiguously somewhere in `hay`. -/
def charsInclude : (hay needle : List Char) → Bool
  | hay, needle =>
    charsStartWith hay needle ||
      match hay with
      | [] => false
      | _ :: cs => charsInclude cs needle

/-- JS `s.includes(sub)`. -/
def strIncludes (s sub : String) : Bool :=
  charsInclude s.data sub.data

/-- The retry classification of `checkStatus` (lines 182-186): an error is
retried only when its message includes one of `ECONNREFUSED`, `ETIMEDOUT`,
`ENOTFOUND` or `fetch failed`. -/
def isNetworkError (msg : String) : Bool :=
  strIncludes msg "ECONNREFUSED" || strIncludes msg "ETIMEDOUT" ||
    strIncludes msg "ENOTFOUND" || strIncludes msg "fetch failed"

/-- The auth-error test of the monitor loop (line 405): whether
`error.message` includes the digits 401 or 403. -/
def isAuthError (msg : String) : Bool :=
  strIncludes msg "401" || strIncludes msg "403"

/-! ## Remote Status Client (`checkStatus`, lines 146-197)

One fetch attempt either produces a snapshot (`.ok`) or throws an error whose
message is a string (`.error`): a thrown network error, the synthesized
`API error: <status> - <body>` for a non-success HTTP response, or
`Invalid API response: expected object` for a non-object body.  The network
is modelled as a function from the 0-based attempt index to that outcome. -/

/-- What one invocation of `checkStatus` did: how many fetch attempts were
performed, the sequence of backoff sleeps (milliseconds) between them, and the
value returned or error thrown. -/
structure CheckTrace where
  attemptsMade : Nat
  waits : List Nat
  result : Except String Snapshot
deriving Repr

/-- The `for (let attempt = 0; attempt < maxRetries; attempt++)` loop of
`checkStatus`.  `fuel` is an upper bound on the remaining iterations used only
to make the recursion structural; `checkStatus` below supplies
`fuel = maxRetries`, which makes the fuel-exhausted branch unreachable and
every test below faithful to the JS guards (`attempt < maxRetries`,
`attempt < maxRetries - 1`).  `lastErr` models the `lastError` variable;
the fuel-exhausted branch is the `throw lastError` after the loop. -/
def checkStatusGo (env : Nat → Except String Snapshot) (maxRetries : Nat) :
    (fuel attempt : Nat) → List Nat → Option String → CheckTrace
  | 0, attempt, waits, lastErr =>
    ⟨attempt, waits.reverse, .error (lastErr.getD "undefined")⟩
  | fuel + 1, attempt, waits, lastErr =>
    if attempt < maxRetries then
      match env attempt with
      | .ok data => ⟨attempt + 1, waits.reverse, .ok data⟩
      | .error msg =>
        if attempt < maxRetries - 1 && isNetworkError msg then
          checkStatusGo env maxRetries fuel (attempt + 1) (5000 :: waits) (some msg)
        else ⟨attempt + 1, waits.reverse, .error msg⟩
    else ⟨attempt, waits.reverse, .error (lastErr.getD "undefined")⟩

/-- `checkStatus(maxRetries = 3)`: run the attempt loop from attempt 0. -/
def checkStatus (env : Nat → Except String Snapshot) (maxRetries : Nat := 3) :
    CheckTrace :=
  checkStatusGo env maxRetries maxRetries 0 [] none

/-! ## Monitor Loop (`monitor`, lines 277-436)

The observable effects of the loop are recorded as an event trace: every
`updateSharedStatus` call (by the shape of the update object it passes),
every notification, speech and opened URL, and every poll-interval sleep.
`process.exit(code)` becomes the `exitCode` of the outcome.  The remote
API — i.e. the value of `await checkStatus()` per iteration — is a function
from the 0-based iteration index to a snapshot or a thrown error message. -/

/-- `POLL_INTERVAL = 30000` (line 52). -/
def POLL_INTERVAL : Nat := 30000

/-- `MAX_ATTEMPTS = 60` (line 53). -/
def MAX_ATTEMPTS : Nat := 60

/-- The argument shapes `monitor` passes to `updateSharedStatus`:
* `initU`    — status queued, progress 0, startTime (line 284);
* `pollU`    — the per-poll status, progress and testRuns (line 304);
* `failedU`  — status failed, progress, failedTests (line 324);
* `successU` — status success, progress 100 (line 363);
* `errorU`   — status error plus the error message (line 399);
* `timeoutU` — status timeout, progress of the empty snapshot (line 422). -/
inductive StoreUpdate where
  | initU
  | pollU (status : Option String) (progress : Nat) (testRuns : Option (List TestRun))
  | failedU (progress : Nat) (failedTests : List FailedTest)
  | successU
  | errorU (message : String)
  | timeoutU (progress : Nat)
deriving DecidableEq, Repr

/-- Which `notify(...)` call fired. -/
inductive Notification where
  | failedBatch
  | failedSingle
  | successBatch
  | successSingle
  | authError
  | timeoutN
deriving DecidableEq, Repr

/-- One observable effect of the monitor process. -/
inductive Event where
  | store (update : StoreUpdate)
  | notif (n : Notification)
  | spoke (text : String)
  | openedUrl (url : String)
  | sleep (ms : Nat)
deriving DecidableEq, Repr

/-- The result of the monitor process: its `process.exit` code and its effect
trace in chronological order. -/
structure MonitorOutcome where
  exitCode : Nat
  events : List Event
deriving DecidableEq, Repr

/-- The code after the `while` loop (lines 420-435): write
the timeout store update with the progress of the empty snapshot, notify, exit 2. -/
def timedOut (acc : List Event) : MonitorOutcome :=
  ⟨2, acc ++ [.store (.timeoutU (calculateProgress emptySnapshot)), .notif .timeoutN]⟩

/-- The `while (attempts < MAX_ATTEMPTS)` loop of `monitor`.  `attempts` is
the counter before its `attempts++` at the top of the body, so iteration `k`
(0-based) consumes `env k`.  `fuel` only bounds the recursion structurally;
`monitor` supplies `fuel = MAX_ATTEMPTS + 1`, making the fuel-exhausted
branch unreachable (it is given timeout semantics, the loop-exit
continuation, so the model is total either way). -/
def monitorGo (env : Nat → Except String Snapshot) (isBatchDeploy : Bool) :
    (fuel attempts : Nat) → List Event → MonitorOutcome
  | 0, _, acc => timedOut acc
  | fuel + 1, attempts, acc =>
    if attempts < MAX_ATTEMPTS then
      match env attempts with
      | .ok status =>
        let progress := calculateProgress status
        let acc1 := acc ++ [Event.store (.pollU status.status progress status.test_runs)]
        if hasFailedEarly status then
          let failed := getFailedTests status
          let acc2 := acc1 ++ [Event.store (.failedU progress failed)]
          if isBatchDeploy then
            ⟨1, acc2 ++ [Event.notif .failedBatch]⟩
          else
            let acc3 := acc2 ++ [Event.notif .failedSingle, Event.spoke "Deployment failed"]
            match failed.head? with
            | some f =>
              match f.url with
              | some u => ⟨1, acc3 ++ [Event.openedUrl u]⟩
              | none => ⟨1, acc3⟩
            | none => ⟨1, acc3⟩
        else if areTestsComplete status && didTestsPass status then
          let acc2 := acc1 ++ [Event.store .successU]
          if isBatchDeploy then
            ⟨0, acc2 ++ [Event.notif .successBatch]⟩
          else
            let acc3 := acc2 ++
              [Event.notif .successSingle, Event.spoke "Deployment complete. Ready to tag."]
            match (status.test_runs.getD []).head? with
            | some firstTestRun =>
              match firstTestRun.result_url with
              | some u => ⟨0, acc3 ++ [Event.openedUrl u]⟩
              | none => ⟨0, acc3⟩
            | none => ⟨0, acc3⟩
        else
          monitorGo env isBatchDeploy fuel (attempts + 1) (acc1 ++ [Event.sleep POLL_INTERVAL])
      | .error msg =>
        let acc1 := acc ++ [Event.store (.errorU msg)]
        if isAuthError msg then
          ⟨1, acc1 ++ [Event.notif .authError]⟩
        else
          monitorGo env isBatchDeploy fuel (attempts + 1) (acc1 ++ [Event.sleep POLL_INTERVAL])
    else timedOut acc

/-- `monitor()`: initialize the shared status (line 284) then run the poll
loop from `attempts = 0`. -/
def monitor (env : Nat → Except String Snapshot) (isBatchDeploy : Bool) :
    MonitorOutcome :=
  monitorGo env isBatchDeploy (MAX_ATTEMPTS + 1) 0 [Event.store .initU]

/-- An iteration outcome that triggers none of the terminal exits of the loop:
a snapshot that neither failed early nor completed with all tests passing,
or a thrown error that is not an auth error. -/
def nonTerminalIter : Except String Snapshot → Bool
  | .ok s => !hasFailedEarly s && !(areTestsComplete s && didTestsPass s)
  | .error msg => !isAuthError msg

/-! ## Status Store (`updateSharedStatus`, lines 58-87)

Status-store entries are arbitrary JSON objects, modelled as association
lists over an atomic value type.  Object spread `{...a, ...b}` and the
productId lookup are modelled exactly; `values` that no claim inspects
(nested test-run objects, timestamps as payloads) are atoms. -/

/-- An atomic JSON value stored in a status entry.  `other` stands for any
structured value (e.g. the `testRuns` payload) that no property here
inspects. -/
inductive JsVal where
  | str (s : String)
  | num (n : Int)
  | boolean (b : Bool)
  | other (tag : Nat)
deriving DecidableEq, Repr

/-- A JS object: an association list from field name to value (unique keys
under the JS object semantics; lookups take the first occurrence). -/
abbrev JsObj := List (String × JsVal)

/-- Field access `o.k`: the value at the first occurrence of key `k`;
`none` models JS `undefined`. -/
def getField : JsObj → String → Option JsVal
  | [], _ => none
  | (k0, v) :: ps, k => if k0 == k then some v else getField ps k

/-- JS object spread `{...a, ...b}`: the keys of `a` in order, with values
overridden by `b` where `b` has the key, followed by the keys of `b` absent
from `a`, in order. -/
def objSpread (a b : JsObj) : JsObj :=
  (a.map fun p => (p.1, (getField b p.1).getD p.2))
    ++ b.filter fun p => (getField a p.1).isNone

/-- Line 71: `data[index] = { ...data[index], ...updates, lastUpdate: Date.now() }`. -/
def mergeEntry (now : Int) (old updates : JsObj) : JsObj :=
  objSpread (objSpread old updates) [("lastUpdate", JsVal.num now)]

/-- The spawn-time configuration fields that `updateSharedStatus`
reads (`productId`, `slug`, `version`). -/
structure MonitorConfig where
  productId : JsVal
  slug : JsVal
  version : JsVal
deriving DecidableEq, Repr

/-- Lines 73-79: the entry pushed when no existing entry matches:
`{productId, slug, version, startTime: Date.now(), ...updates}`. -/
def newEntry (cfg : MonitorConfig) (now : Int) (updates : JsObj) : JsObj :=
  objSpread
    [("productId", cfg.productId), ("slug", cfg.slug),
      ("version", cfg.version), ("startTime", JsVal.num now)]
    updates

/-- `data.findIndex(...)` followed by `data[index] = f(data[index])` when
found, `data.push(mk)` when not: replace the first element satisfying `p` by
its image under `f`, or append `mk` when none does. -/
def updateList (p : JsObj → Bool) (f : JsObj → JsObj) (mk : JsObj) :
    List JsObj → List JsObj
  | [] => [mk]
  | d :: ds => if p d then f d :: ds else d :: updateList p f mk ds

/-- Lines 68-80 of `updateSharedStatus`: locate the entry whose `productId`
equals the one configured, merge `updates` (plus a refreshed `lastUpdate`) into
it, or append a freshly seeded entry. -/
def updateSharedStatus (cfg : MonitorConfig) (now : Int) (updates : JsObj)
    (data : List JsObj) : List JsObj :=
  updateList (fun d => getField d "productId" == some cfg.productId)
    (fun d => mergeEntry now d updates) (newEntry cfg now updates) data

/-- What reading + `JSON.parse`-ing the status file yields (lines 62-66):
the file is absent, its content is empty (falsy), it parses to an array of
entries, or `JSON.parse` throws. -/
inductive ReadResult where
  | missing
  | emptyContent
  | parsed (data : List JsObj)
  | parseError
deriving DecidableEq, Repr

/-- The whole body of `updateSharedStatus` for a set `statusFile`, as a
read-modify-write on the file: `some newData` means the function wrote
`newData` back; `none` means the `catch` at line 83 swallowed an exception
and nothing was written.  The function itself never throws. -/
def updateSharedStatusFile (cfg : MonitorConfig) (now : Int) (updates : JsObj) :
    ReadResult → Option (List JsObj)
  | .missing => some (updateSharedStatus cfg now updates [])
  | .emptyContent => some (updateSharedStatus cfg now updates [])
  | .parsed data => some (updateSharedStatus cfg now updates data)
  | .parseError => none

/-- At most one entry per distinct `productId`: any two entries agreeing on
`productId` can only both lack the field. -/
def uniqueById (data : List JsObj) : Prop :=
  (data.map fun d => getField d "productId").Pairwise fun x y => x = y → x = none

instance (data : List JsObj) : Decidable (uniqueById data) := by
  unfold uniqueById; infer_instance

/-! ## Theorems -/

/-- `roundRat` computes exactly the mathematical round-half-up of
`num / den`, which is what JS `Math.round` does on nonnegative arguments. -/
lemma roundRat_eq_round (num den : Nat) (h : den ≠ 0) :
    (roundRat num den : ℤ) = round ((num : ℚ) / (den : ℚ)) := by
  have hd : (0 : ℚ) < (den : ℚ) := by exact_mod_cast Nat.pos_of_ne_zero h
  rw [round_eq]
  have key : (num : ℚ) / (den : ℚ) + 1 / 2 =
      ((2 * num + den : ℕ) : ℚ) / ((2 * den : ℕ) : ℚ) := by
    push_cast
    field_simp
    ring
  rw [key, ← Int.natCast_floor_eq_floor (by positivity), Nat.floor_div_eq_div]
  rfl

/-- C4: `hasFailedEarly` returns true iff the top-level status is `failed`
or `error`, or some individual test run has status `failed` or `error`;
in particular it is true for a snapshot with top-level status `failed`
whose every test run is still `pending`. -/
theorem hasFailedEarly_characterization :
    (∀ s : Snapshot, hasFailedEarly s = true ↔
      (s.status = some "failed" ∨ s.status = some "error" ∨
        ∃ t ∈ s.test_runs.getD [], t.status = "failed" ∨ t.status = "error")) ∧
    hasFailedEarly ⟨some "failed", some [⟨"pending", "security", none⟩]⟩ = true := by
  refine ⟨?_, by decide⟩
  intro s
  obtain ⟨st, tr⟩ := s
  cases tr with
  | none => simp [hasFailedEarly]
  | some runs =>
    simp only [hasFailedEarly]
    by_cases h : st = some "failed" ∨ st = some "error"
    · have : (st == some "failed" || st == some "error") = true := by
        rcases h with h | h <;> simp [h]
      rw [this]
      constructor
      · intro _
        tauto
      · intro _
        simp
    · have : (st == some "failed" || st == some "error") = false := by
        push_neg at h
        simp [h.1, h.2]
      rw [this]
      push_neg at h
      simp [List.any_eq_true, h.1, h.2]

/-- C4 witness: the characterization applied to a concrete early-failure
snapshot whose only test run is still pending. -/
theorem hasFailedEarly_characterization_witness :
    hasFailedEarly ⟨some "failed", some [⟨"pending", "security", none⟩]⟩ = true :=
  (hasFailedEarly_characterization.1 _).mpr (Or.inl rfl)

/-- C5: `calculateProgress` returns 5 when `test_runs` is absent, 10 when it
is present but empty, and otherwise the round-half-up of
`100 * completed / total` where completed counts the runs whose status is
outside pending/running/queued. -/
theorem calculateProgress_characterization :
    (∀ s : Snapshot, s.test_runs = none → calculateProgress s = 5) ∧
    (∀ s : Snapshot, s.test_runs = some [] → calculateProgress s = 10) ∧
    (∀ (s : Snapshot) (runs : List TestRun), s.test_runs = some runs → runs ≠ [] →
      (calculateProgress s : ℤ) =
        round ((100 * (completedCount runs : ℚ)) / (runs.length : ℚ))) := by
  refine ⟨?_, ?_, ?_⟩
  · intro s h
    simp [calculateProgress, h]
  · intro s h
    simp [calculateProgress, h]
  · intro s runs h hne
    have hlen : runs.length ≠ 0 := by simpa [List.length_eq_zero] using hne
    simp only [calculateProgress, h]
    rw [if_neg hlen, roundRat_eq_round _ _ hlen]
    congr 1
    push_cast
    ring

/-- C5 witness: the characterization applied to a two-run snapshot with one
completed run (progress 50). -/
theorem calculateProgress_characterization_witness :
    (calculateProgress
        ⟨some "processing",
          some [⟨"success", "api", none⟩, ⟨"running", "e2e", none⟩]⟩ : ℤ) =
      round ((100 * (completedCount
          [⟨"success", "api", none⟩, ⟨"running", "e2e", none⟩] : ℚ)) / (2 : ℚ)) :=
  calculateProgress_characterization.2.2 _
    [⟨"success", "api", none⟩, ⟨"running", "e2e", none⟩] rfl (by decide)

/-- C10: whenever `areTestsComplete` holds — the guard under which the
success path dereferences `Object.values(status.test_runs)[0]` — the
`test_runs` mapping is present and nonempty, so the first test run the
monitor reads before opening a result URL is defined. -/
theorem success_path_first_test_run_defined (s : Snapshot)
    (h : areTestsComplete s = true) :
    ∃ firstTestRun rest, s.test_runs = some (firstTestRun :: rest) ∧
      (s.test_runs.getD []).head? = some firstTestRun := by
  cases hr : s.test_runs with
  | none => rw [areTestsComplete, hr] at h; cases h
  | some runs =>
    cases runs with
    | nil => rw [areTestsComplete, hr] at h; simp at h
    | cons t ts => exact ⟨t, ts, rfl, rfl⟩

/-- Across every state the retry loop can be in, the number of fetch
attempts performed never exceeds `max maxRetries attempt`. -/
lemma checkStatusGo_attemptsMade_le (env : Nat → Except String Snapshot)
    (maxRetries : Nat) :
    ∀ (fuel attempt : Nat) (waits : List Nat) (lastErr : Option String),
      (checkStatusGo env maxRetries fuel attempt waits lastErr).attemptsMade ≤
        max maxRetries attempt := by
  intro fuel
  induction fuel with
  | zero =>
    intro a w l
    simp [checkStatusGo]
  | succ fuel ih =>
    intro a w l
    simp only [checkStatusGo]
    by_cases hlt : a < maxRetries
    · rw [if_pos hlt]
      cases env a with
      | ok d =>
        simp
        omega
      | error m =>
        dsimp only
        by_cases hc : a < maxRetries - 1
        · by_cases hn : isNetworkError m = true
          · rw [if_pos (by simp [hc, hn])]
            have := ih (a + 1) (5000 :: w) (some m)
            omega
          · rw [if_neg (by simp [hn])]
            simp
            omega
        · rw [if_neg (by simp [hc])]
          simp
          omega
    · rw [if_neg hlt]
      simp

/-- C1: `checkStatus` makes at most 3 fetch attempts; when every attempt
fails and the first two failures are classified as network errors (message
containing `ECONNREFUSED`/`ETIMEDOUT`/`ENOTFOUND`/`fetch failed`), all 3
attempts are made with a fixed 5000 ms wait between consecutive attempts and
the last error is propagated; when the first failure is not classified as a
network error (an HTTP `API error: ...` failure or a malformed-response
failure), no retry happens — the error propagates after the first attempt
with no wait. -/
theorem checkStatus_retry_policy (env : Nat → Except String Snapshot)
    (m0 m1 m2 : String)
    (h0 : env 0 = .error m0) (h1 : env 1 = .error m1) (h2 : env 2 = .error m2) :
    (∀ e : Nat → Except String Snapshot, (checkStatus e).attemptsMade ≤ 3) ∧
    (isNetworkError m0 = true → isNetworkError m1 = true →
      checkStatus env = ⟨3, [5000, 5000], .error m2⟩) ∧
    (isNetworkError m0 = false → checkStatus env = ⟨1, [], .error m0⟩) := by
  refine ⟨?_, ?_, ?_⟩
  · intro e
    simpa using checkStatusGo_attemptsMade_le e 3 3 0 [] none
  · intro hn0 hn1
    simp [checkStatus, checkStatusGo, h0, h1, h2, hn0, hn1]
  · intro hn0
    simp [checkStatus, checkStatusGo, h0, hn0]

/-- C1 witness: a connection-refused failure on every attempt yields 3
attempts, two 5-second waits, and the last error. -/
theorem checkStatus_retry_policy_witness :
    checkStatus (fun _ => Except.error "connect ECONNREFUSED 127.0.0.1:443") =
      ⟨3, [5000, 5000], Except.error "connect ECONNREFUSED 127.0.0.1:443"⟩ :=
  (checkStatus_retry_policy (fun _ => Except.error "connect ECONNREFUSED 127.0.0.1:443")
      "connect ECONNREFUSED 127.0.0.1:443" "connect ECONNREFUSED 127.0.0.1:443"
      "connect ECONNREFUSED 127.0.0.1:443" rfl rfl rfl).2.1 (by decide) (by decide)

/-- C2 counterexample: with the status file containing content that fails
`JSON.parse`, `updateSharedStatus` performs **no** write at all — the thrown
parse error is swallowed by the catch — rather than, as claimed, treating
the file as an empty array and writing back a one-element array with the
new entry appended. -/
theorem updateSharedStatus_invalidJson_counterexample :
    updateSharedStatusFile ⟨JsVal.num 123, JsVal.str "my-ext", JsVal.str "1.2.3"⟩
        1000 [("status", JsVal.str "queued")] .parseError = none ∧
    updateSharedStatusFile ⟨JsVal.num 123, JsVal.str "my-ext", JsVal.str "1.2.3"⟩
        1000 [("status", JsVal.str "queued")] .parseError ≠
      some [newEntry ⟨JsVal.num 123, JsVal.str "my-ext", JsVal.str "1.2.3"⟩
        1000 [("status", JsVal.str "queued")]] :=
  ⟨rfl, by decide⟩

/-- C2 (amended): with a status file path set and the file content failing
to parse as JSON, the call does not throw but skips the update entirely
(no write happens); a missing or empty file, by contrast, is the case
treated as an empty array, producing a one-element array with the new
entry. -/
theorem updateSharedStatusFile_invalidJson_skips_write
    (cfg : MonitorConfig) (now : Int) (updates : JsObj) :
    updateSharedStatusFile cfg now updates .parseError = none ∧
    updateSharedStatusFile cfg now updates .missing =
      some [newEntry cfg now updates] ∧
    updateSharedStatusFile cfg now updates .emptyContent =
      some [newEntry cfg now updates] :=
  ⟨rfl, rfl, rfl⟩

/-- C10 witness: the guard theorem applied to a completed one-run snapshot. -/
theorem success_path_first_test_run_defined_witness :
    ∃ firstTestRun rest,
      (⟨some "completed", some [⟨"success", "security", some "https://r"⟩]⟩ :
          Snapshot).test_runs = some (firstTestRun :: rest) ∧
      ((⟨some "completed", some [⟨"success", "security", some "https://r"⟩]⟩ :
          Snapshot).test_runs.getD []).head? = some firstTestRun :=
  success_path_first_test_run_defined _ (by decide)

lemma monitorGo_nonterminal_timeout (env : Nat → Except String Snapshot)
    (isBatchDeploy : Bool) :
    ∀ (fuel attempts : Nat) (acc : List Event),
      (∀ i, attempts ≤ i → i < MAX_ATTEMPTS → nonTerminalIter (env i) = true) →
      ∃ pre, monitorGo env isBatchDeploy fuel attempts acc =
        ⟨2, acc ++ (pre ++ [Event.store (.timeoutU 5), Event.notif .timeoutN])⟩ := by
  intro fuel
  induction fuel with
  | zero =>
    intro attempts acc h
    exact ⟨[], by simp [monitorGo, timedOut, calculateProgress, emptySnapshot]⟩
  | succ fuel ih =>
    intro attempts acc h
    by_cases hlt : attempts < MAX_ATTEMPTS
    · have hnt := h attempts le_rfl hlt
      simp only [monitorGo]
      rw [if_pos hlt]
      cases he : env attempts with
      | ok s =>
        rw [he] at hnt
        simp only [nonTerminalIter, Bool.and_eq_true, Bool.not_eq_true'] at hnt
        dsimp only
        rw [if_neg (by simp [hnt.1])]
        rw [if_neg (by simp [hnt.2])]
        obtain ⟨pre, hpre⟩ := ih (attempts + 1)
          (acc ++ [Event.store (.pollU s.status (calculateProgress s) s.test_runs)] ++
            [Event.sleep POLL_INTERVAL])
          (fun i hi hi2 => h i (by omega) hi2)
        exact ⟨[Event.store (.pollU s.status (calculateProgress s) s.test_runs),
          Event.sleep POLL_INTERVAL] ++ pre, by rw [hpre]; simp⟩
      | error msg =>
        rw [he] at hnt
        simp only [nonTerminalIter, Bool.not_eq_true'] at hnt
        dsimp only
        rw [if_neg (by simp [hnt])]
        obtain ⟨pre, hpre⟩ := ih (attempts + 1)
          (acc ++ [Event.store (.errorU msg)] ++ [Event.sleep POLL_INTERVAL])
          (fun i hi hi2 => h i (by omega) hi2)
        exact ⟨[Event.store (.errorU msg), Event.sleep POLL_INTERVAL] ++ pre,
          by rw [hpre]; simp⟩
    · simp only [monitorGo]
      rw [if_neg hlt]
      exact ⟨[], by simp [timedOut, calculateProgress, emptySnapshot]⟩



theorem monitor_timeout_progress_counterexample :
    calculateProgress ⟨some "processing", some [⟨"running", "security", none⟩]⟩ = 0 ∧
    Event.store (.timeoutU 5) ∈
      (monitor (fun _ => .ok ⟨some "processing", some [⟨"running", "security", none⟩]⟩)
        false).events ∧
    Event.store (.timeoutU 0) ∉
      (monitor (fun _ => .ok ⟨some "processing", some [⟨"running", "security", none⟩]⟩)
        false).events :=
  ⟨by decide, by decide, by decide⟩

theorem monitor_timeout_exits_two (env : Nat → Except String Snapshot)
    (isBatchDeploy : Bool)
    (h : ∀ i, i < MAX_ATTEMPTS → nonTerminalIter (env i) = true) :
    (monitor env isBatchDeploy).exitCode = 2 ∧
    Event.notif .timeoutN ∈ (monitor env isBatchDeploy).events ∧
    ∃ pre, (monitor env isBatchDeploy).events =
      pre ++ [Event.store (.timeoutU 5), Event.notif .timeoutN] := by
  obtain ⟨pre, hpre⟩ := monitorGo_nonterminal_timeout env isBatchDeploy
    (MAX_ATTEMPTS + 1) 0 [Event.store .initU] (fun i _ hi => h i hi)
  unfold monitor
  rw [hpre]
  exact ⟨rfl, by simp, ⟨Event.store .initU :: pre, by simp⟩⟩

theorem monitor_timeout_exits_two_witness :
    (monitor (fun _ => .ok ⟨some "processing", some [⟨"running", "security", none⟩]⟩)
      false).exitCode = 2 :=
  (monitor_timeout_exits_two _ false (by decide)).1

theorem monitor_auth_error_terminal (env : Nat → Except String Snapshot)
    (isBatchDeploy : Bool) (fuel attempts : Nat) (acc : List Event) (msg : String)
    (hlt : attempts < MAX_ATTEMPTS) (he : env attempts = .error msg)
    (ha : isAuthError msg = true) :
    monitorGo env isBatchDeploy (fuel + 1) attempts acc =
      ⟨1, acc ++ [Event.store (.errorU msg), Event.notif .authError]⟩ := by
  simp only [monitorGo]
  rw [if_pos hlt, he]
  dsimp only
  rw [if_pos ha]
  simp

theorem monitor_auth_error_terminal_witness :
    monitorGo (fun _ => .error "API error: 401 - Unauthorized") false (0 + 1) 0 [] =
      ⟨1, [Event.store (.errorU "API error: 401 - Unauthorized"),
        Event.notif .authError]⟩ := by
  have := monitor_auth_error_terminal (fun _ => .error "API error: 401 - Unauthorized")
    false 0 0 [] "API error: 401 - Unauthorized" (by decide) rfl (by decide)
  simpa using this

theorem monitor_transient_error_continues (env : Nat → Except String Snapshot)
    (isBatchDeploy : Bool) (fuel attempts : Nat) (acc : List Event) (msg : String)
    (hlt : attempts < MAX_ATTEMPTS) (he : env attempts = .error msg)
    (ha : isAuthError msg = false) :
    (monitorGo env isBatchDeploy (fuel + 1) attempts acc =
      monitorGo env isBatchDeploy fuel (attempts + 1)
        (acc ++ [Event.store (.errorU msg), Event.sleep POLL_INTERVAL])) ∧
    ((∀ i, i < MAX_ATTEMPTS → ∃ m, env i = Except.error m ∧ isAuthError m = false) →
      (monitor env isBatchDeploy).exitCode = 2) := by
  constructor
  · simp only [monitorGo]
    rw [if_pos hlt, he]
    dsimp only
    rw [if_neg (by simp [ha])]
    simp
  · intro hall
    have h : ∀ i, i < MAX_ATTEMPTS → nonTerminalIter (env i) = true := by
      intro i hi
      obtain ⟨m, hm, hmna⟩ := hall i hi
      rw [hm]
      simp [nonTerminalIter, hmna]
    obtain ⟨pre, hpre⟩ := monitorGo_nonterminal_timeout env isBatchDeploy
      (MAX_ATTEMPTS + 1) 0 [Event.store .initU] (fun i _ hi => h i hi)
    unfold monitor
    rw [hpre]

theorem monitor_transient_error_continues_witness :
    (monitor (fun _ => .error "connect ECONNREFUSED 127.0.0.1:443") false).exitCode = 2 :=
  (monitor_transient_error_continues
      (fun _ => .error "connect ECONNREFUSED 127.0.0.1:443") false 5 0 []
      "connect ECONNREFUSED 127.0.0.1:443" (by decide) rfl (by decide)).2
    (fun i hi => ⟨"connect ECONNREFUSED 127.0.0.1:443", rfl, by decide⟩)

theorem monitor_complete_not_passed_polls_to_ceiling
    (s : Snapshot) (runs : List TestRun)
    (hr : s.test_runs = some runs) (hne : runs ≠ [])
    (hdone : ∀ t ∈ runs, pendingStates.contains t.status = false)
    (hnofail : ∀ t ∈ runs, t.status ≠ "failed" ∧ t.status ≠ "error")
    (htop : s.status ≠ some "failed" ∧ s.status ≠ some "error")
    (hnotall : ∃ t ∈ runs, t.status ≠ "success") :
    hasFailedEarly s = false ∧ areTestsComplete s = true ∧ didTestsPass s = false ∧
    (∀ (env : Nat → Except String Snapshot) (isBatchDeploy : Bool)
        (fuel attempts : Nat) (acc : List Event),
      attempts < MAX_ATTEMPTS → env attempts = .ok s →
      monitorGo env isBatchDeploy (fuel + 1) attempts acc =
        monitorGo env isBatchDeploy fuel (attempts + 1)
          (acc ++ [Event.store (.pollU s.status (calculateProgress s) s.test_runs),
            Event.sleep POLL_INTERVAL])) ∧
    (∀ isBatchDeploy : Bool, (monitor (fun _ => .ok s) isBatchDeploy).exitCode = 2) := by
  have h1 : hasFailedEarly s = false := by
    unfold hasFailedEarly
    rw [hr]
    rw [if_neg (by simp [htop.1, htop.2])]
    rw [List.any_eq_false]
    intro t ht
    simp [(hnofail t ht).1, (hnofail t ht).2]
  have h2 : areTestsComplete s = true := by
    unfold areTestsComplete
    rw [hr]
    dsimp only
    rw [if_neg (by simpa [List.length_eq_zero] using hne)]
    rw [List.all_eq_true]
    intro t ht
    rw [Bool.not_eq_true']
    exact hdone t ht
  have h3 : didTestsPass s = false := by
    unfold didTestsPass
    rw [hr]
    dsimp only
    rw [List.all_eq_false]
    obtain ⟨t, ht, hts⟩ := hnotall
    exact ⟨t, ht, by simp [hts]⟩
  refine ⟨h1, h2, h3, ?_, ?_⟩
  · intro env isBatchDeploy fuel attempts acc hlt he
    simp only [monitorGo]
    rw [if_pos hlt, he]
    dsimp only
    rw [if_neg (by simp [h1]), if_neg (by simp [h3])]
    simp
  · intro isBatchDeploy
    obtain ⟨pre, hpre⟩ := monitorGo_nonterminal_timeout (fun _ => .ok s) isBatchDeploy
      (MAX_ATTEMPTS + 1) 0 [Event.store .initU]
      (fun i _ hi => by simp [nonTerminalIter, h1, h3])
    unfold monitor
    rw [hpre]

theorem monitor_complete_not_passed_polls_to_ceiling_witness :
    (monitor (fun _ => .ok ⟨some "processing", some [⟨"cancelled", "e2e", none⟩]⟩)
      false).exitCode = 2 :=
  (monitor_complete_not_passed_polls_to_ceiling _ [⟨"cancelled", "e2e", none⟩] rfl
      (by decide) (by decide) (by decide) (by decide) (by decide)).2.2.2.2 false

/-- Lookup distributes over JS-object concatenation, first list winning. -/
lemma getField_append (a b : JsObj) (k : String) :
    getField (a ++ b) k = (getField a k).or (getField b k) := by
  induction a with
  | nil => rfl
  | cons p ps ih =>
    obtain ⟨k0, v0⟩ := p
    simp only [List.cons_append, getField]
    by_cases hk : (k0 == k) = true
    · rw [if_pos hk, if_pos hk]
      rfl
    · rw [if_neg hk, if_neg hk]
      exact ih

/-- Lookup in the override part of a spread: keys of `a`, values taken
from `b` when present. -/
lemma getField_spreadMap (a b : JsObj) (k : String) :
    getField (a.map fun p => (p.1, (getField b p.1).getD p.2)) k =
      (getField a k).map fun v => (getField b k).getD v := by
  induction a with
  | nil => rfl
  | cons p ps ih =>
    obtain ⟨k0, v0⟩ := p
    simp only [List.map_cons, getField]
    by_cases hk : (k0 == k) = true
    · have hk' : k0 = k := by simpa using hk
      subst hk'
      rw [if_pos hk, if_pos hk]
      rfl
    · rw [if_neg hk, if_neg hk, ih]

/-- Lookup in the appended part of a spread: the keys of `b` that `a`
lacks. -/
lemma getField_filterIsNone (a b : JsObj) (k : String) :
    getField (b.filter fun p => (getField a p.1).isNone) k =
      if (getField a k).isNone then getField b k else none := by
  induction b with
  | nil =>
    cases h : (getField a k).isNone <;> simp [getField, h]
  | cons p ps ih =>
    obtain ⟨k0, v0⟩ := p
    by_cases hkeep : ((getField a k0).isNone : Bool) = true
    · rw [List.filter_cons_of_pos (by simpa using hkeep)]
      by_cases hk : (k0 == k) = true
      · have hk' : k0 = k := by simpa using hk
        subst hk'
        simp only [getField]
        rw [if_pos hk, if_pos hk, if_pos hkeep]
      · simp only [getField]
        rw [if_neg hk, if_neg hk, ih]
    · rw [List.filter_cons_of_neg (by simpa using hkeep)]
      by_cases hk : (k0 == k) = true
      · have hk' : k0 = k := by simpa using hk
        subst hk'
        rw [ih, if_neg hkeep, if_neg hkeep]
      · simp only [getField]
        rw [if_neg hk, ih]

/-- The JS spread law: a field of `{...a, ...b}` is its field in `b` when
present there, else its field in `a`. -/
lemma getField_objSpread (a b : JsObj) (k : String) :
    getField (objSpread a b) k = (getField b k).or (getField a k) := by
  unfold objSpread
  rw [getField_append, getField_spreadMap, getField_filterIsNone]
  cases ha : getField a k <;> cases hb : getField b k <;> simp [Option.or]



/-- The merged entry always carries the refreshed `lastUpdate`. -/
lemma getField_mergeEntry_lastUpdate (now : Int) (old updates : JsObj) :
    getField (mergeEntry now old updates) "lastUpdate" = some (JsVal.num now) := by
  unfold mergeEntry
  rw [getField_objSpread]
  rfl

/-- Any field other than `lastUpdate` of a merged entry: the update wins,
else the old entry. -/
lemma getField_mergeEntry (now : Int) (old updates : JsObj) (k : String)
    (hk : k ≠ "lastUpdate") :
    getField (mergeEntry now old updates) k =
      (getField updates k).or (getField old k) := by
  unfold mergeEntry
  rw [getField_objSpread, getField_objSpread]
  have hlu : getField [("lastUpdate", JsVal.num now)] k = none := by
    simp only [getField]
    rw [if_neg (by simpa using Ne.symm hk)]
  rw [hlu]
  rfl

/-- Merging never changes `productId` when the update object lacks one. -/
lemma getField_mergeEntry_productId (now : Int) (old updates : JsObj)
    (hp : getField updates "productId" = none) :
    getField (mergeEntry now old updates) "productId" =
      getField old "productId" := by
  rw [getField_mergeEntry now old updates _ (by decide), hp]
  rfl

/-- A freshly pushed entry carries the configured `productId` when the
update object lacks one. -/
lemma getField_newEntry_productId (cfg : MonitorConfig) (now : Int)
    (updates : JsObj) (hp : getField updates "productId" = none) :
    getField (newEntry cfg now updates) "productId" = some cfg.productId := by
  unfold newEntry
  rw [getField_objSpread, hp]
  rfl

/-- `findIndex` misses: the entry list is kept and `mk` is pushed. -/
lemma updateList_of_not_found (p : JsObj → Bool) (f : JsObj → JsObj) (mk : JsObj) :
    ∀ l : List JsObj, (∀ d ∈ l, p d = false) → updateList p f mk l = l ++ [mk] := by
  intro l
  induction l with
  | nil => intro _; rfl
  | cons d ds ih =>
    intro h
    unfold updateList
    rw [if_neg (by simp [h d (by simp)])]
    rw [ih (fun e he => h e (by simp [he]))]
    rfl

/-- `findIndex` hits: exactly the first matching entry is replaced. -/
lemma updateList_found (p : JsObj → Bool) (f : JsObj → JsObj) (mk : JsObj) :
    ∀ (pre : List JsObj) (d : JsObj) (post : List JsObj),
      (∀ e ∈ pre, p e = false) → p d = true →
      updateList p f mk (pre ++ d :: post) = pre ++ f d :: post := by
  intro pre
  induction pre with
  | nil =>
    intro d post _ hd
    simp only [List.nil_append]
    unfold updateList
    rw [if_pos hd]
  | cons e es ih =>
    intro d post hpre hd
    simp only [List.cons_append]
    unfold updateList
    rw [if_neg (by simp [hpre e (by simp)])]
    rw [ih d post (fun x hx => hpre x (by simp [hx])) hd]

/-- Every entry of an updated store carries either a `productId` already in
the store or the configured one. -/
lemma updateSharedStatus_pid_mem (cfg : MonitorConfig) (now : Int)
    (updates : JsObj) (hp : getField updates "productId" = none) :
    ∀ (l : List JsObj) (x : JsObj), x ∈ updateSharedStatus cfg now updates l →
      getField x "productId" ∈ l.map (fun d => getField d "productId") ∨
        getField x "productId" = some cfg.productId := by
  intro l
  induction l with
  | nil =>
    intro x hx
    right
    simp only [updateSharedStatus, updateList, List.mem_singleton] at hx
    subst hx
    exact getField_newEntry_productId cfg now updates hp
  | cons d ds ih =>
    intro x hx
    simp only [updateSharedStatus, updateList] at hx
    by_cases hd : (getField d "productId" == some cfg.productId) = true
    · rw [if_pos hd] at hx
      rcases List.mem_cons.mp hx with h | h
      · subst h
        left
        rw [getField_mergeEntry_productId now d updates hp]
        exact List.mem_cons_self _ _
      · left
        exact List.mem_cons_of_mem _ (List.mem_map_of_mem _ h)
    · rw [if_neg hd] at hx
      rcases List.mem_cons.mp hx with h | h
      · subst h
        left
        exact List.mem_cons_self _ _
      · rcases ih x h with hmem | hpid
        · left
          rw [List.map_cons]
          exact List.mem_cons_of_mem _ hmem
        · right
          exact hpid

/-- `updateSharedStatus` preserves at-most-one-entry-per-productId. -/
lemma uniqueById_updateSharedStatus (cfg : MonitorConfig) (now : Int)
    (updates : JsObj) (hp : getField updates "productId" = none) :
    ∀ l : List JsObj, uniqueById l →
      uniqueById (updateSharedStatus cfg now updates l) := by
  intro l
  induction l with
  | nil =>
    intro _
    simp [uniqueById, updateSharedStatus, updateList]
  | cons d ds ih =>
    intro hu
    unfold uniqueById at hu
    rw [List.map_cons, List.pairwise_cons] at hu
    obtain ⟨hhead, htail⟩ := hu
    simp only [updateSharedStatus, updateList]
    by_cases hd : (getField d "productId" == some cfg.productId) = true
    · rw [if_pos hd]
      unfold uniqueById
      rw [List.map_cons, List.pairwise_cons]
      refine ⟨?_, htail⟩
      intro y hy
      rw [getField_mergeEntry_productId now d updates hp]
      exact hhead y hy
    · rw [if_neg hd]
      unfold uniqueById
      rw [List.map_cons, List.pairwise_cons]
      constructor
      · intro y hy heq
        rw [List.mem_map] at hy
        obtain ⟨x, hx, rfl⟩ := hy
        rcases updateSharedStatus_pid_mem cfg now updates hp ds x hx with hmem | hpid
        · exact hhead _ hmem heq
        · rw [hpid] at heq
          exact absurd (by simp [heq]) hd
      · exact ih htail



/-- C9: on a store with at most one entry per distinct productId,
`updateSharedStatus` preserves that uniqueness; a call matching no entry
appends exactly one freshly seeded entry at the end; a call matching an
entry replaces exactly that entry in place by the shallow merge whose
fields are the update object where present (the later call winning) and
the old entry elsewhere, with `lastUpdate` refreshed; so repeated calls
with one productId keep one merged entry, never a duplicate. -/
theorem updateSharedStatus_uniqueness (cfg : MonitorConfig) (now : Int)
    (updates : JsObj) (data : List JsObj)
    (hu : uniqueById data) (hp : getField updates "productId" = none) :
    uniqueById (updateSharedStatus cfg now updates data) ∧
    ((∀ d ∈ data, getField d "productId" ≠ some cfg.productId) →
      updateSharedStatus cfg now updates data = data ++ [newEntry cfg now updates]) ∧
    (∀ pre d post, data = pre ++ d :: post →
      (∀ e ∈ pre, getField e "productId" ≠ some cfg.productId) →
      getField d "productId" = some cfg.productId →
      updateSharedStatus cfg now updates data =
        pre ++ mergeEntry now d updates :: post) ∧
    (∀ old k, k ≠ "lastUpdate" →
      getField (mergeEntry now old updates) k =
        (getField updates k).or (getField old k)) ∧
    (∀ old, getField (mergeEntry now old updates) "lastUpdate" =
      some (JsVal.num now)) := by
  refine ⟨uniqueById_updateSharedStatus cfg now updates hp data hu, ?_, ?_, ?_, ?_⟩
  · intro h
    exact updateList_of_not_found _ _ _ data
      (fun d hd => by simpa using h d hd)
  · intro pre d post hdata hpre hd
    rw [hdata]
    exact updateList_found _ _ _ pre d post
      (fun e he => by simpa using hpre e he) (by simpa using hd)
  · intro old k hk
    exact getField_mergeEntry now old updates k hk
  · intro old
    exact getField_mergeEntry_lastUpdate now old updates

/-- C9 witness: updating a two-entry store whose first entry matches the
configured productId keeps uniqueness. -/
theorem updateSharedStatus_uniqueness_witness :
    uniqueById (updateSharedStatus ⟨JsVal.num 7, JsVal.str "ext", JsVal.str "2.0"⟩ 50
      [("status", JsVal.str "success"), ("progress", JsVal.num 100)]
      [[("productId", JsVal.num 7), ("slug", JsVal.str "ext"),
        ("version", JsVal.str "2.0"), ("startTime", JsVal.num 10),
        ("status", JsVal.str "queued")],
       [("productId", JsVal.num 8), ("slug", JsVal.str "oth"),
        ("version", JsVal.str "1.0"), ("startTime", JsVal.num 11)]]) :=
  (updateSharedStatus_uniqueness ⟨JsVal.num 7, JsVal.str "ext", JsVal.str "2.0"⟩ 50
    [("status", JsVal.str "success"), ("progress", JsVal.num 100)] _
    (by decide) (by decide)).1

end DeployMonitor
